import Mathlib

/-!
Verification of the subtitle/caption serializer core of the transcription
tool (`src/pages/Transcribe.py`): `format_time`, `create_srt_content`,
`create_vtt_content`, `create_tsv_content`, and the `content = result["text"]`
access of the page.  Times are embedded as rationals; Python floor division
`//`, the `%` operator and `int()` truncation are modelled explicitly.
Python dicts holding segment fields are modelled as records of optional
fields; a missing key raises `KeyError`, modelled by an `Except` result.
-/

namespace Transcribe

/-- Python `a // b` on numbers: floor division (result is the floor, as a number). -/
def pyfloordiv (a b : ℚ) : ℚ := (⌊a / b⌋ : ℤ)

/-- Python `a % b`: `a - b * (a // b)`. -/
def pymod (a b : ℚ) : ℚ := a - b * pyfloordiv a b

/-- Python `int()`: truncation toward zero. -/
def pyint (q : ℚ) : ℤ := if 0 ≤ q then ⌊q⌋ else ⌈q⌉

/-- The character for a decimal digit `d` (0–9). -/
def digitChar (d : ℕ) : Char := Char.ofNat (48 + d)

/-- Decimal digits of `n`, most significant first; `fuel`-bounded structural
recursion (any `fuel ≥ n` is exact). -/
def natReprAux : ℕ → ℕ → List Char
  | 0, _ => []
  | _ + 1, 0 => []
  | fuel + 1, n + 1 => natReprAux fuel ((n + 1) / 10) ++ [digitChar ((n + 1) % 10)]

/-- Decimal rendering of a natural number, as Python renders an `int`. -/
def natRepr (n : ℕ) : String := if n = 0 then "0" else ⟨natReprAux (n + 1) n⟩

/-- Python `f"{k:02d}"`: zero-pad to width 2 (sign included in the width). -/
def pad2 (k : ℤ) : String :=
  if k < 0 then "-" ++ natRepr k.natAbs
  else if k.natAbs < 10 then "0" ++ natRepr k.natAbs
  else natRepr k.natAbs

/-- `format_time` (Transcribe.py lines 11–17): `hours = int(seconds // 3600)`,
`minutes = int((seconds % 3600) // 60)`, `seconds = int(seconds % 60)`,
rendered as `f"{hours:02d}:{minutes:02d}:{seconds:02d}"`. -/
def format_time (seconds : ℚ) : String :=
  let hours : ℤ := pyint (pyfloordiv seconds 3600)
  let minutes : ℤ := pyint (pyfloordiv (pymod seconds 3600) 60)
  let secs : ℤ := pyint (pymod seconds 60)
  pad2 hours ++ ":" ++ pad2 minutes ++ ":" ++ pad2 secs

/-- The `milliseconds` local of `format_time` (line 16):
`int((seconds % 1) * 1000)` computed AFTER `seconds = int(seconds % 60)`
has rebound `seconds` to a whole number; the value is never used in the
returned string. -/
def format_time_milliseconds (seconds : ℚ) : ℤ :=
  pyint (pymod ((pyint (pymod seconds 60) : ℤ) : ℚ) 1 * 1000)

/-- A segment dict as received from the recognition engine: each key may be
absent (Python would raise `KeyError` on access). -/
structure SegmentD where
  start : Option ℚ := none
  «end» : Option ℚ := none
  text : Option String := none

/-- A fully populated segment (numeric `start`/`end`, string `text`). -/
structure FullSeg where
  start : ℚ
  stop : ℚ
  text : String

/-- View a fully populated segment as a segment dict with all keys present. -/
def mkD (s : FullSeg) : SegmentD := ⟨some s.start, some s.stop, some s.text⟩

/-- Errors a serializer run can surface.  The code only ever raises
`keyError` (Python `KeyError` from a missing dict key); `malformedResult`
is the spec's `MalformedResult` error, included so that statements about it
can be expressed — no code path produces it. -/
inductive SerErr where
  | keyError (field : String)
  | malformedResult (field : String)
deriving DecidableEq, Repr

/-- Python dict access `d[k]`: the value, or `KeyError(k)`. -/
def getKey {α : Type} (x : Option α) (k : String) : Except SerErr α :=
  match x with
  | some v => .ok v
  | none => .error (.keyError k)

/-- The loop of `create_srt_content` (lines 22–25): `enumerate(segments, i)`,
appending `f"{i}\n{start} --> {end}\n{segment['text']}\n\n"` where
`start`/`end` are `format_time(...) + ",000"`. -/
def srtGo : ℕ → List SegmentD → Except SerErr String
  | _, [] => .ok ""
  | i, seg :: rest =>
    match getKey seg.start "start" with
    | .error e => .error e
    | .ok s =>
      match getKey seg.«end» "end" with
      | .error e => .error e
      | .ok en =>
        match getKey seg.text "text" with
        | .error e => .error e
        | .ok t =>
          match srtGo (i + 1) rest with
          | .error e => .error e
          | .ok tail =>
            .ok (natRepr i ++ "\n" ++ (format_time s ++ ",000") ++ " --> " ++
              (format_time en ++ ",000") ++ "\n" ++ t ++ "\n\n" ++ tail)

/-- `create_srt_content` (lines 19–26). -/
def create_srt_content (segments : List SegmentD) : Except SerErr String :=
  srtGo 1 segments

/-- The loop of `create_vtt_content` (lines 31–34): the enumeration index is
unused; each cue is `f"{start}.000 --> {end}.000\n{segment['text']}\n\n"`. -/
def vttGo : List SegmentD → Except SerErr String
  | [] => .ok ""
  | seg :: rest =>
    match getKey seg.start "start" with
    | .error e => .error e
    | .ok s =>
      match getKey seg.«end» "end" with
      | .error e => .error e
      | .ok en =>
        match getKey seg.text "text" with
        | .error e => .error e
        | .ok t =>
          match vttGo rest with
          | .error e => .error e
          | .ok tail =>
            .ok ((format_time s ++ ".000") ++ " --> " ++ (format_time en ++ ".000") ++
              "\n" ++ t ++ "\n\n" ++ tail)

/-- `create_vtt_content` (lines 28–35): `"WEBVTT\n\n"` then the cues. -/
def create_vtt_content (segments : List SegmentD) : Except SerErr String :=
  match vttGo segments with
  | .error e => .error e
  | .ok s => .ok ("WEBVTT\n\n" ++ s)

/-- Does Python's `csv.writer` (QUOTE_MINIMAL, delimiter `\t`, quotechar `"`,
lineterminator `"\r\n"`) quote this field? Exactly when it contains the
delimiter, the quote char, or a line-terminator character. -/
def needsQuote (f : List Char) : Bool :=
  f.any fun c => c = '\t' || c = '"' || c = '\r' || c = '\n'

/-- Double every `"` in a field, as `csv.writer` does inside a quoted field. -/
def escQuotes : List Char → List Char
  | [] => []
  | c :: cs => if c = '"' then '"' :: '"' :: escQuotes cs else c :: escQuotes cs

/-- One field as written by `csv.writer`: quoted (with quotes doubled) when
it needs quoting, verbatim otherwise. -/
def encodeField (f : String) : String :=
  if needsQuote f.data then ⟨'"' :: escQuotes f.data ++ ['"']⟩ else f

/-- The body of one `csv.writer.writerow` output: fields joined by tabs. -/
def rowBody : List String → String
  | [] => ""
  | [f] => encodeField f
  | f :: rest => encodeField f ++ "\t" ++ rowBody rest

/-- One `writerow` call: the joined fields plus the `"\r\n"` terminator. -/
def writeRow (fs : List String) : String := rowBody fs ++ "\r\n"

/-- The loop of `create_tsv_content` (lines 42–45): one row per segment,
fields `format_time(segment['start'])`, `format_time(segment['end'])`,
`segment['text']`. -/
def tsvGo : List SegmentD → Except SerErr String
  | [] => .ok ""
  | seg :: rest =>
    match getKey seg.start "start" with
    | .error e => .error e
    | .ok s =>
      match getKey seg.«end» "end" with
      | .error e => .error e
      | .ok en =>
        match getKey seg.text "text" with
        | .error e => .error e
        | .ok t =>
          match tsvGo rest with
          | .error e => .error e
          | .ok tail => .ok (writeRow [format_time s, format_time en, t] ++ tail)

/-- `create_tsv_content` (lines 37–46): header row `Start/End/Text`, then the
segment rows, via `csv.writer` with tab delimiter. -/
def create_tsv_content (segments : List SegmentD) : Except SerErr String :=
  match tsvGo segments with
  | .error e => .error e
  | .ok s => .ok (writeRow ["Start", "End", "Text"] ++ s)

/-- A transcription result dict: `text` and `segments` keys may be absent. -/
structure TranscriptionResultD where
  text : Option String := none
  segments : List SegmentD := []

/-- The `txt` serializer of the page (line 159): `content = result["text"]`. -/
def txt_content (r : TranscriptionResultD) : Except SerErr String :=
  getKey r.text "text"

/-! ### Claim-side definitions: block grammars and parsers used to state the
spec's properties about the serialized artifacts. -/

/-- Concatenation of a list of strings. -/
def strJoin : List String → String
  | [] => ""
  | s :: rest => s ++ strJoin rest

/-- The SRT cue block the spec prescribes for index `i` (1-based) and a
segment: index line, timecode line, text line, blank line. -/
def srtBlock (i : ℕ) (s : FullSeg) : String :=
  natRepr i ++ "\n" ++ (format_time s.start ++ ",000") ++ " --> " ++
    (format_time s.stop ++ ",000") ++ "\n" ++ s.text ++ "\n\n"

/-- The SRT document the spec prescribes: the cue blocks for the segments
numbered sequentially from 1, concatenated. -/
def srtSpec (S : List FullSeg) : String :=
  strJoin ((S.enumFrom 1).map fun p => srtBlock p.1 p.2)

/-- The VTT cue block the spec prescribes: a timecode line, the text, a blank
line — and no index or identifier line. -/
def vttCue (s : FullSeg) : String :=
  (format_time s.start ++ ".000") ++ " --> " ++ (format_time s.stop ++ ".000") ++
    "\n" ++ s.text ++ "\n\n"

/-- The VTT document the spec prescribes: the literal `"WEBVTT\n\n"` prefix
followed by the cue blocks. -/
def vttSpec (S : List FullSeg) : String :=
  "WEBVTT\n\n" ++ strJoin (S.map vttCue)

/-- Zero-padding of a natural number to at least two decimal digits. -/
def natPad2 (n : ℕ) : String := if n < 10 then "0" ++ natRepr n else natRepr n

/-- Read a decimal digit string as a natural number (left fold). -/
def parseNatL (l : List Char) : ℕ := l.foldl (fun a c => 10 * a + (c.toNat - 48)) 0

/-- Split a character list on a separator character (fields between
occurrences of `sep`, in order; always at least one field). -/
def splitOnChar (sep : Char) : List Char → List (List Char)
  | [] => [[]]
  | c :: cs =>
    if c = sep then [] :: splitOnChar sep cs
    else
      match splitOnChar sep cs with
      | [] => [[c]]
      | r :: rs => (c :: r) :: rs

/-- Split a character list on the two-character sequence `"\r\n"`. -/
def splitCRLF : List Char → List (List Char)
  | [] => [[]]
  | [c] => [[c]]
  | c1 :: c2 :: cs =>
    if c1 = '\r' ∧ c2 = '\n' then [] :: splitCRLF cs
    else
      match splitCRLF (c2 :: cs) with
      | [] => [[c1]]
      | r :: rs => (c1 :: r) :: rs

/-- Read a `HH:MM:SS` timecode field back as a number of whole seconds. -/
def parseTS (l : List Char) : Option ℕ :=
  match splitOnChar ':' l with
  | [h, m, s] => some (parseNatL h * 3600 + parseNatL m * 60 + parseNatL s)
  | _ => none

/-- Scanner state for reading one CSV row: outside any quoted run, inside a
quoted run, or just past a quote character inside a quoted run (which either
doubles to a literal quote or closes the run). -/
inductive RState where
  | plain
  | quoted
  | afterQ

/-- Quote-aware scan of one tab-separated row in the CSV convention:
outside quotes a tab separates fields and a quote opens a quoted run;
inside quotes a doubled quote is a literal quote and a single quote closes
the run.  `acc` holds the current field reversed. -/
def parseRowAux : List Char → RState → List Char → List (List Char)
  | [], _, acc => [acc.reverse]
  | c :: cs, .plain, acc =>
    if c = '\t' then acc.reverse :: parseRowAux cs .plain []
    else if c = '"' then parseRowAux cs .quoted acc
    else parseRowAux cs .plain (c :: acc)
  | c :: cs, .quoted, acc =>
    if c = '"' then parseRowAux cs .afterQ acc
    else parseRowAux cs .quoted (c :: acc)
  | c :: cs, .afterQ, acc =>
    if c = '"' then parseRowAux cs .quoted ('"' :: acc)
    else if c = '\t' then acc.reverse :: parseRowAux cs .plain []
    else parseRowAux cs .plain (c :: acc)

/-- Quote-aware field split of one row (without its line terminator). -/
def parseRowQ (s : String) : List String :=
  (parseRowAux s.data .plain []).map fun l => ⟨l⟩

/-- Texts with no embedded tab, newline, carriage return or double quote. -/
def noSpecialText (s : String) : Bool :=
  s.data.all fun c => c ≠ '\t' && c ≠ '\n' && c ≠ '\r' && c ≠ '"'

/-- The naive TSV reader of the round-trip claim, reading rows by splitting
on the newline character: drop the header row and the empty fragment after
the final row terminator, split each row on tabs, read the two timecodes. -/
def parseTSVNaive (content : String) : List (Option (ℕ × ℕ × String)) :=
  (((splitOnChar '\n' content.data).drop 1).dropLast).map fun r =>
    match splitOnChar '\t' r with
    | [f1, f2, f3] =>
      match parseTS f1, parseTS f2 with
      | some a, some b => some (a, b, (⟨f3⟩ : String))
      | _, _ => none
    | _ => none

/-- The same reader with rows split on the `"\r\n"` sequence instead. -/
def parseTSVCRLF (content : String) : List (Option (ℕ × ℕ × String)) :=
  (((splitCRLF content.data).drop 1).dropLast).map fun r =>
    match splitOnChar '\t' r with
    | [f1, f2, f3] =>
      match parseTS f1, parseTS f2 with
      | some a, some b => some (a, b, (⟨f3⟩ : String))
      | _, _ => none
    | _ => none

/-- The TSV layout claim, read naively: splitting the artifact on newline
characters yields the header row `Start\tEnd\tText` first, and then one row
per segment that splits on tabs into exactly the two timecode fields and the
segment's text. -/
def tsvClaimNaive (S : List FullSeg) : Bool :=
  match create_tsv_content (S.map mkD) with
  | .error _ => false
  | .ok c =>
    let rows := splitOnChar '\n' c.data
    rows.head? = some ("Start\tEnd\tText".data) &&
      ((rows.drop 1).dropLast =
        S.map fun s => (format_time s.start).data ++ '\t' ::
          (format_time s.stop).data ++ '\t' :: s.text.data)

/-- The TSV round-trip claim, read naively on newlines and tabs: the rows
reconstruct each segment's `(start, end, text)` at whole-second precision. -/
def tsvRoundTripNaive (S : List FullSeg) : Bool :=
  match create_tsv_content (S.map mkD) with
  | .error _ => false
  | .ok c =>
    parseTSVNaive c = S.map fun s => some (⌊s.start⌋.toNat, ⌊s.stop⌋.toNat, s.text)

/-! ### Arithmetic of Python floor division and modulus. -/

lemma floor_div_int_q (q : ℚ) (b : ℤ) (hb : 0 < b) : ⌊q / (b : ℚ)⌋ = ⌊q⌋ / b := by
  have hb0 : (0 : ℚ) < (b : ℚ) := by exact_mod_cast hb
  have hbne : b ≠ 0 := by omega
  have hr0 : 0 ≤ ⌊q⌋ % b := Int.emod_nonneg _ hbne
  have hrlt : ⌊q⌋ % b < b := Int.emod_lt_of_pos _ hb
  have hk : ⌊q⌋ % b + b * (⌊q⌋ / b) = ⌊q⌋ := Int.emod_add_ediv _ _
  rw [Int.floor_eq_iff]
  constructor
  · rw [le_div_iff₀ hb0]
    have h1 : (⌊q⌋ / b) * b ≤ ⌊q⌋ := by nlinarith [hk, hr0]
    calc ((⌊q⌋ / b : ℤ) : ℚ) * (b : ℚ) = (((⌊q⌋ / b) * b : ℤ) : ℚ) := by push_cast; ring
    _ ≤ ((⌊q⌋ : ℤ) : ℚ) := by exact_mod_cast h1
    _ ≤ q := Int.floor_le q
  · rw [div_lt_iff₀ hb0]
    have h2 : ⌊q⌋ + 1 ≤ (⌊q⌋ / b + 1) * b := by nlinarith [hk, hrlt]
    calc q < ((⌊q⌋ : ℤ) : ℚ) + 1 := Int.lt_floor_add_one q
    _ = (((⌊q⌋ + 1 : ℤ)) : ℚ) := by push_cast; ring
    _ ≤ (((⌊q⌋ / b + 1) * b : ℤ) : ℚ) := by exact_mod_cast h2
    _ = (((⌊q⌋ / b : ℤ) : ℚ) + 1) * (b : ℚ) := by push_cast; ring

lemma floor_pymod_int (q : ℚ) (b : ℤ) (hb : 0 < b) :
    ⌊pymod q (b : ℚ)⌋ = ⌊q⌋ % b := by
  unfold pymod pyfloordiv
  have hcast : (b : ℚ) * ((⌊q / (b : ℚ)⌋ : ℤ) : ℚ) = ((b * ⌊q / (b : ℚ)⌋ : ℤ) : ℚ) := by
    push_cast; ring
  rw [hcast, Int.floor_sub_int, floor_div_int_q q b hb, Int.emod_def]

lemma pymod_nonneg_of_pos (q : ℚ) (b : ℤ) (hb : 0 < b) : 0 ≤ pymod q (b : ℚ) := by
  unfold pymod pyfloordiv
  have hb0 : (0 : ℚ) < (b : ℚ) := by exact_mod_cast hb
  have h := Int.sub_floor_div_mul_nonneg q hb0
  calc (0 : ℚ) ≤ q - ⌊q / (b : ℚ)⌋ * (b : ℚ) := h
  _ = q - (b : ℚ) * ((⌊q / (b : ℚ)⌋ : ℤ) : ℚ) := by ring

lemma pyint_intCast (k : ℤ) : pyint (k : ℚ) = k := by
  unfold pyint
  by_cases h : (0 : ℚ) ≤ (k : ℚ)
  · rw [if_pos h, Int.floor_intCast]
  · rw [if_neg h, Int.ceil_intCast]

lemma pyint_of_nonneg (q : ℚ) (h : 0 ≤ q) : pyint q = ⌊q⌋ := by
  unfold pyint; rw [if_pos h]

/-- `format_time` in closed integer form: its three components are the
floor's Euclidean quotients and remainders by 3600 and 60. -/
lemma format_time_eq (q : ℚ) :
    format_time q =
      pad2 (⌊q⌋ / 3600) ++ ":" ++ pad2 (⌊q⌋ % 3600 / 60) ++ ":" ++ pad2 (⌊q⌋ % 60) := by
  unfold format_time
  have h3600 : ((3600 : ℤ) : ℚ) = (3600 : ℚ) := by norm_num
  have h60 : ((60 : ℤ) : ℚ) = (60 : ℚ) := by norm_num
  have hhours : pyint (pyfloordiv q 3600) = ⌊q⌋ / 3600 := by
    unfold pyfloordiv
    rw [pyint_intCast, ← h3600, floor_div_int_q q 3600 (by norm_num)]
  have hmin : pyint (pyfloordiv (pymod q 3600) 60) = ⌊q⌋ % 3600 / 60 := by
    unfold pyfloordiv
    rw [pyint_intCast, ← h60, floor_div_int_q _ 60 (by norm_num), ← h3600,
      floor_pymod_int q 3600 (by norm_num)]
  have hsec : pyint (pymod q 60) = ⌊q⌋ % 60 := by
    rw [pyint_of_nonneg _ (by rw [← h60]; exact pymod_nonneg_of_pos q 60 (by norm_num)),
      ← h60, floor_pymod_int q 60 (by norm_num)]
  rw [hhours, hmin, hsec]

/-- The `milliseconds` local computed by `format_time` is always zero: the
fractional part was already discarded by `int(seconds % 60)`. -/
lemma format_time_milliseconds_eq_zero (q : ℚ) : format_time_milliseconds q = 0 := by
  unfold format_time_milliseconds
  set k : ℤ := pyint (pymod q 60) with hk
  have h1 : pymod ((k : ℤ) : ℚ) 1 = 0 := by
    unfold pymod pyfloordiv
    rw [div_one, Int.floor_intCast]
    ring
  rw [h1, zero_mul]
  simpa using pyint_intCast 0

/-! ### Decimal rendering: digit classification, lengths, parse round trip. -/

lemma digitChar_toNat {d : ℕ} (h : d < 10) : (digitChar d).toNat = 48 + d := by
  interval_cases d <;> rfl

lemma natReprAux_mem {fuel n : ℕ} {c : Char} (h : c ∈ natReprAux fuel n) :
    ∃ d, d < 10 ∧ c = digitChar d := by
  induction fuel generalizing n with
  | zero => simp [natReprAux] at h
  | succ fuel ih =>
    cases n with
    | zero => simp [natReprAux] at h
    | succ m =>
      rw [natReprAux] at h
      rcases List.mem_append.mp h with h1 | h2
      · exact ih h1
      · exact ⟨(m + 1) % 10, Nat.mod_lt _ (by norm_num), by simpa using h2⟩

lemma natRepr_mem {n : ℕ} {c : Char} (h : c ∈ (natRepr n).data) :
    48 ≤ c.toNat ∧ c.toNat ≤ 57 := by
  unfold natRepr at h
  by_cases h0 : n = 0
  · rw [if_pos h0] at h
    simp only [show ("0" : String).data = ['0'] from rfl, List.mem_singleton] at h
    subst h; decide
  · rw [if_neg h0] at h
    obtain ⟨d, hd, rfl⟩ := natReprAux_mem h
    rw [digitChar_toNat hd]
    omega

lemma natPad2_mem {n : ℕ} {c : Char} (h : c ∈ (natPad2 n).data) :
    48 ≤ c.toNat ∧ c.toNat ≤ 57 := by
  unfold natPad2 at h
  by_cases h10 : n < 10
  · rw [if_pos h10, String.data_append] at h
    rcases List.mem_append.mp h with h1 | h2
    · simp only [show ("0" : String).data = ['0'] from rfl, List.mem_singleton] at h1
      subst h1; decide
    · exact natRepr_mem h2
  · rw [if_neg h10] at h
    exact natRepr_mem h

lemma natReprAux_parse : ∀ fuel n, n ≤ fuel → parseNatL (natReprAux fuel n) = n := by
  intro fuel
  induction fuel with
  | zero => intro n hn; interval_cases n; rfl
  | succ fuel ih =>
    intro n hn
    cases n with
    | zero => rfl
    | succ m =>
      rw [natReprAux]
      unfold parseNatL
      rw [List.foldl_append]
      have hdiv : (m + 1) / 10 ≤ fuel := by omega
      have := ih ((m + 1) / 10) hdiv
      unfold parseNatL at this
      rw [this]
      simp only [List.foldl_cons, List.foldl_nil]
      rw [digitChar_toNat (Nat.mod_lt _ (by norm_num))]
      omega

lemma natRepr_parse (n : ℕ) : parseNatL (natRepr n).data = n := by
  unfold natRepr
  by_cases h0 : n = 0
  · subst h0; rfl
  · rw [if_neg h0]
    exact natReprAux_parse (n + 1) n (by omega)

lemma natPad2_parse (n : ℕ) : parseNatL (natPad2 n).data = n := by
  unfold natPad2
  by_cases h10 : n < 10
  · rw [if_pos h10, String.data_append]
    show List.foldl _ 0 (('0' :: []) ++ (natRepr n).data) = n
    rw [List.foldl_append]
    simpa using natRepr_parse n
  · rw [if_neg h10]
    exact natRepr_parse n

lemma natReprAux_len_pos : ∀ fuel n, 1 ≤ n → n ≤ fuel → 1 ≤ (natReprAux fuel n).length := by
  intro fuel
  induction fuel with
  | zero => intro n h1 h2; omega
  | succ fuel _ =>
    intro n h1 _
    cases n with
    | zero => omega
    | succ m => rw [natReprAux]; simp

lemma natRepr_len_pos (n : ℕ) : 1 ≤ (natRepr n).length := by
  unfold natRepr
  by_cases h0 : n = 0
  · rw [if_pos h0]; rfl
  · rw [if_neg h0]
    show 1 ≤ (natReprAux (n + 1) n).length
    exact natReprAux_len_pos (n + 1) n (by omega) (by omega)

lemma natRepr_len_one {n : ℕ} (h : n < 10) : (natRepr n).length = 1 := by
  interval_cases n <;> rfl

lemma natReprAux_zero (fuel : ℕ) : natReprAux fuel 0 = [] := by
  cases fuel <;> rfl

lemma natReprAux_single {fuel n : ℕ} (h1 : 1 ≤ n) (h2 : n < 10) (hf : 1 ≤ fuel) :
    natReprAux fuel n = [digitChar n] := by
  obtain ⟨m, rfl⟩ : ∃ m, n = m + 1 := ⟨n - 1, by omega⟩
  obtain ⟨f, rfl⟩ : ∃ f, fuel = f + 1 := ⟨fuel - 1, by omega⟩
  rw [natReprAux]
  rw [show (m + 1) / 10 = 0 by omega, natReprAux_zero, show (m + 1) % 10 = m + 1 by omega]
  rfl

lemma natRepr_len_two {n : ℕ} (h1 : 10 ≤ n) (h2 : n < 100) : (natRepr n).length = 2 := by
  unfold natRepr
  rw [if_neg (by omega)]
  show (natReprAux (n + 1) n).length = 2
  obtain ⟨m, rfl⟩ : ∃ m, n = m + 1 := ⟨n - 1, by omega⟩
  rw [natReprAux]
  rw [natReprAux_single (by omega) (by omega) (by omega)]
  rfl

lemma natPad2_len_two {n : ℕ} (h : n < 100) : (natPad2 n).length = 2 := by
  unfold natPad2
  by_cases h10 : n < 10
  · rw [if_pos h10, String.length_append, natRepr_len_one h10]
    rfl
  · rw [if_neg h10]
    exact natRepr_len_two (by omega) h

lemma natPad2_len_ge (n : ℕ) : 2 ≤ (natPad2 n).length := by
  unfold natPad2
  by_cases h10 : n < 10
  · rw [if_pos h10, String.length_append]
    have := natRepr_len_pos n
    have : ("0" : String).length = 1 := rfl
    omega
  · rw [if_neg h10]
    unfold natRepr
    rw [if_neg (by omega)]
    show 2 ≤ (natReprAux (n + 1) n).length
    obtain ⟨m, rfl⟩ : ∃ m, n = m + 1 := ⟨n - 1, by omega⟩
    rw [natReprAux]
    have h1 : 1 ≤ (natReprAux (m + 1) ((m + 1) / 10)).length :=
      natReprAux_len_pos (m + 1) ((m + 1) / 10) (by omega) (by omega)
    simp only [List.length_append, List.length_cons, List.length_nil]
    omega

lemma pad2_nonneg {k : ℤ} (h : 0 ≤ k) : pad2 k = natPad2 k.toNat := by
  unfold pad2 natPad2
  rw [if_neg (by omega)]
  rw [show k.natAbs = k.toNat by omega]

/-! ### Characters occurring in timecodes, and splitter lemmas. -/

lemma pad2_mem {k : ℤ} {c : Char} (h : c ∈ (pad2 k).data) :
    (48 ≤ c.toNat ∧ c.toNat ≤ 57) ∨ c = '-' := by
  unfold pad2 at h
  by_cases hneg : k < 0
  · rw [if_pos hneg, String.data_append] at h
    rcases List.mem_append.mp h with h1 | h2
    · right
      simpa [show ("-" : String).data = ['-'] from rfl] using h1
    · exact Or.inl (natRepr_mem h2)
  · rw [if_neg hneg] at h
    by_cases h10 : k.natAbs < 10
    · rw [if_pos h10, String.data_append] at h
      rcases List.mem_append.mp h with h1 | h2
      · left
        have : c = '0' := by simpa [show ("0" : String).data = ['0'] from rfl] using h1
        subst this; decide
      · exact Or.inl (natRepr_mem h2)
    · rw [if_neg h10] at h
      exact Or.inl (natRepr_mem h)

lemma format_time_mem {q : ℚ} {c : Char} (h : c ∈ (format_time q).data) :
    (48 ≤ c.toNat ∧ c.toNat ≤ 57) ∨ c = ':' ∨ c = '-' := by
  rw [format_time_eq] at h
  simp only [String.data_append] at h
  have hcol : c ∈ (":" : String).data → c = ':' := by
    intro hx
    simpa [show (":" : String).data = [':'] from rfl] using hx
  have hpad : ∀ k : ℤ, c ∈ (pad2 k).data →
      (48 ≤ c.toNat ∧ c.toNat ≤ 57) ∨ c = ':' ∨ c = '-' := by
    intro k hk
    rcases pad2_mem hk with h1 | h1
    exacts [Or.inl h1, Or.inr (Or.inr h1)]
  rcases List.mem_append.mp h with h1 | hC
  · rcases List.mem_append.mp h1 with h2 | hcol2
    · rcases List.mem_append.mp h2 with h3 | hB
      · rcases List.mem_append.mp h3 with hA | hcol1
        · exact hpad _ hA
        · exact Or.inr (Or.inl (hcol hcol1))
      · exact hpad _ hB
    · exact Or.inr (Or.inl (hcol hcol2))
  · exact hpad _ hC

/-- No character of a rendered timecode is a tab, quote, CR or LF. -/
lemma format_time_safe (q : ℚ) :
    ∀ c ∈ (format_time q).data, c ≠ '\t' ∧ c ≠ '"' ∧ c ≠ '\r' ∧ c ≠ '\n' := by
  intro c hc
  rcases format_time_mem hc with h | h | h
  · refine ⟨?_, ?_, ?_, ?_⟩ <;> (intro he; subst he; revert h; decide)
  · subst h; decide
  · subst h; decide

lemma natPad2_no_colon {n : ℕ} : ∀ c ∈ (natPad2 n).data, c ≠ ':' := by
  intro c hc he
  have := natPad2_mem hc
  subst he
  revert this; decide

lemma splitOnChar_no_sep {sep : Char} : ∀ {xs : List Char}, (∀ c ∈ xs, c ≠ sep) →
    splitOnChar sep xs = [xs] := by
  intro xs
  induction xs with
  | nil => intro _; rfl
  | cons c cs ih =>
    intro h
    rw [splitOnChar, if_neg (h c (by simp))]
    rw [ih fun d hd => h d (by simp [hd])]

lemma splitOnChar_append {sep : Char} : ∀ {xs : List Char} (ys : List Char),
    (∀ c ∈ xs, c ≠ sep) →
    splitOnChar sep (xs ++ sep :: ys) = xs :: splitOnChar sep ys := by
  intro xs
  induction xs with
  | nil =>
    intro ys _
    rw [List.nil_append, splitOnChar, if_pos rfl]
  | cons c cs ih =>
    intro ys h
    rw [List.cons_append, splitOnChar, if_neg (h c (by simp))]
    rw [ih ys fun d hd => h d (by simp [hd])]

lemma splitCRLF_append : ∀ {xs : List Char} (ys : List Char), (∀ c ∈ xs, c ≠ '\r') →
    splitCRLF (xs ++ '\r' :: '\n' :: ys) = xs :: splitCRLF ys := by
  intro xs
  induction xs with
  | nil =>
    intro ys _
    rw [List.nil_append, splitCRLF, if_pos ⟨rfl, rfl⟩]
  | cons c cs ih =>
    intro ys h
    cases cs with
    | nil =>
      rw [List.cons_append, List.nil_append, splitCRLF,
        if_neg (by exact fun hand => h c (by simp) hand.1)]
      rw [splitCRLF, if_pos ⟨rfl, rfl⟩]
    | cons c2 cs2 =>
      rw [List.cons_append, List.cons_append, splitCRLF,
        if_neg (by exact fun hand => h c (by simp) hand.1)]
      have hstep : splitCRLF (c2 :: (cs2 ++ '\r' :: '\n' :: ys)) =
          (c2 :: cs2) :: splitCRLF ys := by
        have := ih ys fun d hd => h d (by simp [hd])
        simpa using this
      rw [hstep]

/-- Reading back the timecode of a non-negative time recovers its floor. -/
lemma parseTS_format_time {q : ℚ} (h : 0 ≤ q) :
    parseTS (format_time q).data = some ⌊q⌋.toNat := by
  have hfl : 0 ≤ ⌊q⌋ := Int.floor_nonneg.mpr h
  have hA : 0 ≤ ⌊q⌋ / 3600 := Int.ediv_nonneg hfl (by norm_num)
  have hB : 0 ≤ ⌊q⌋ % 3600 / 60 := Int.ediv_nonneg (Int.emod_nonneg _ (by norm_num)) (by norm_num)
  have hC : 0 ≤ ⌊q⌋ % 60 := Int.emod_nonneg _ (by norm_num)
  rw [format_time_eq, pad2_nonneg hA, pad2_nonneg hB, pad2_nonneg hC]
  unfold parseTS
  have hdata : ((natPad2 (⌊q⌋ / 3600).toNat ++ ":" ++ natPad2 (⌊q⌋ % 3600 / 60).toNat ++ ":" ++
      natPad2 (⌊q⌋ % 60).toNat)).data =
      (natPad2 (⌊q⌋ / 3600).toNat).data ++ ':' ::
        ((natPad2 (⌊q⌋ % 3600 / 60).toNat).data ++ ':' :: (natPad2 (⌊q⌋ % 60).toNat).data) := by
    simp [String.data_append, show (":" : String).data = [':'] from rfl]
  rw [hdata]
  rw [splitOnChar_append _ natPad2_no_colon, splitOnChar_append _ natPad2_no_colon,
    splitOnChar_no_sep natPad2_no_colon]
  simp only [natPad2_parse]
  congr 1
  omega

/-! ### Refinement lemmas: each serializer, on fully populated segments,
succeeds and produces the documented block structure. -/

/-- The TSV document rendered for fully populated segments. -/
def tsvRender (S : List FullSeg) : String :=
  writeRow ["Start", "End", "Text"] ++
    strJoin (S.map fun s => writeRow [format_time s.start, format_time s.stop, s.text])

lemma srtGo_map_mkD : ∀ (S : List FullSeg) (i : ℕ),
    srtGo i (S.map mkD) = .ok (strJoin ((S.enumFrom i).map fun p => srtBlock p.1 p.2)) := by
  intro S
  induction S with
  | nil => intro i; rfl
  | cons s rest ih =>
    intro i
    show srtGo i (mkD s :: rest.map mkD) = _
    rw [srtGo]
    show (match srtGo (i + 1) (rest.map mkD) with
      | Except.error e => Except.error e
      | Except.ok tail =>
        .ok (natRepr i ++ "\n" ++ (format_time s.start ++ ",000") ++ " --> " ++
          (format_time s.stop ++ ",000") ++ "\n" ++ s.text ++ "\n\n" ++ tail)) = _
    rw [ih (i + 1)]
    show Except.ok _ = _
    rw [List.enumFrom, List.map_cons, strJoin]
    rfl

lemma create_srt_ok (S : List FullSeg) :
    create_srt_content (S.map mkD) =
      .ok (strJoin ((S.enumFrom 1).map fun p => srtBlock p.1 p.2)) :=
  srtGo_map_mkD S 1

lemma vttGo_map_mkD : ∀ S : List FullSeg,
    vttGo (S.map mkD) = .ok (strJoin (S.map vttCue)) := by
  intro S
  induction S with
  | nil => rfl
  | cons s rest ih =>
    show vttGo (mkD s :: rest.map mkD) = _
    rw [vttGo]
    show (match vttGo (rest.map mkD) with
      | Except.error e => Except.error e
      | Except.ok tail =>
        Except.ok ((format_time s.start ++ ".000") ++ " --> " ++ (format_time s.stop ++ ".000") ++
          "\n" ++ s.text ++ "\n\n" ++ tail)) = _
    rw [ih]
    rfl

lemma create_vtt_ok (S : List FullSeg) :
    create_vtt_content (S.map mkD) = .ok ("WEBVTT\n\n" ++ strJoin (S.map vttCue)) := by
  unfold create_vtt_content
  rw [vttGo_map_mkD]

lemma tsvGo_map_mkD : ∀ S : List FullSeg,
    tsvGo (S.map mkD) =
      .ok (strJoin (S.map fun s => writeRow [format_time s.start, format_time s.stop, s.text])) := by
  intro S
  induction S with
  | nil => rfl
  | cons s rest ih =>
    show tsvGo (mkD s :: rest.map mkD) = _
    rw [tsvGo]
    show (match tsvGo (rest.map mkD) with
      | Except.error e => Except.error e
      | Except.ok tail => Except.ok (writeRow [format_time s.start, format_time s.stop, s.text] ++ tail)) = _
    rw [ih]
    rfl

lemma create_tsv_ok (S : List FullSeg) :
    create_tsv_content (S.map mkD) = .ok (tsvRender S) := by
  unfold create_tsv_content tsvRender
  rw [tsvGo_map_mkD]

/-! ### The quote-aware row reader undoes the CSV field encoding. -/

lemma needsQuote_false_mem {f : List Char} (hq : ¬ needsQuote f = true) :
    ∀ c ∈ f, c ≠ '\t' ∧ c ≠ '"' ∧ c ≠ '\r' ∧ c ≠ '\n' := by
  intro c hc
  have hb : ¬ ((c = '\t' || c = '"' || c = '\r' || c = '\n') = true) := by
    intro hb
    exact hq (List.any_eq_true.mpr ⟨c, hc, hb⟩)
  simp only [Bool.or_eq_true, decide_eq_true_eq] at hb
  push_neg at hb
  exact ⟨hb.1.1.1, hb.1.1.2, hb.1.2, hb.2⟩

lemma parseRowAux_plain : ∀ (xs : List Char) (rest acc : List Char),
    (∀ c ∈ xs, c ≠ '\t' ∧ c ≠ '"') →
    parseRowAux (xs ++ rest) .plain acc = parseRowAux rest .plain (xs.reverse ++ acc) := by
  intro xs
  induction xs with
  | nil => intro rest acc _; simp
  | cons c cs ih =>
    intro rest acc h
    obtain ⟨hc1, hc2⟩ := h c (by simp)
    rw [List.cons_append, parseRowAux, if_neg hc1, if_neg hc2]
    rw [ih rest (c :: acc) fun d hd => h d (by simp [hd])]
    simp

lemma parseRowAux_quoted : ∀ (f : List Char) (rest acc : List Char),
    parseRowAux (escQuotes f ++ '"' :: rest) .quoted acc =
      parseRowAux rest .afterQ (f.reverse ++ acc) := by
  intro f
  induction f with
  | nil =>
    intro rest acc
    rw [escQuotes, List.nil_append, parseRowAux, if_pos rfl]
    simp
  | cons c cs ih =>
    intro rest acc
    by_cases hc : c = '"'
    · subst hc
      rw [escQuotes, if_pos rfl, List.cons_append, List.cons_append,
        parseRowAux, if_pos rfl, parseRowAux, if_pos rfl]
      rw [ih rest ('"' :: acc)]
      simp
    · rw [escQuotes, if_neg hc, List.cons_append, parseRowAux, if_neg hc]
      rw [ih rest (c :: acc)]
      simp

lemma parseRowAux_field (f : String) (rest acc : List Char) :
    parseRowAux ((encodeField f).data ++ '\t' :: rest) .plain acc =
      (acc.reverse ++ f.data) :: parseRowAux rest .plain [] := by
  unfold encodeField
  by_cases hq : needsQuote f.data
  · rw [if_pos hq]
    show parseRowAux (('"' :: (escQuotes f.data ++ ['"'])) ++ '\t' :: rest) .plain acc = _
    rw [List.cons_append, List.append_assoc, List.singleton_append]
    rw [parseRowAux, if_neg (by decide), if_pos rfl]
    rw [parseRowAux_quoted f.data ('\t' :: rest) acc]
    rw [parseRowAux, if_neg (by decide), if_pos rfl]
    simp
  · rw [if_neg hq]
    have hch : ∀ c ∈ f.data, c ≠ '\t' ∧ c ≠ '"' := fun c hc =>
      ⟨(needsQuote_false_mem hq c hc).1, (needsQuote_false_mem hq c hc).2.1⟩
    rw [parseRowAux_plain f.data ('\t' :: rest) acc hch]
    rw [parseRowAux, if_pos rfl]
    simp

lemma parseRowAux_last (f : String) (acc : List Char) :
    parseRowAux ((encodeField f).data) .plain acc = [acc.reverse ++ f.data] := by
  unfold encodeField
  by_cases hq : needsQuote f.data
  · rw [if_pos hq]
    show parseRowAux ('"' :: (escQuotes f.data ++ ['"'])) .plain acc = _
    rw [show (escQuotes f.data ++ ['"'] : List Char) = escQuotes f.data ++ '"' :: [] by simp]
    rw [parseRowAux, if_neg (by decide), if_pos rfl]
    rw [parseRowAux_quoted f.data [] acc]
    rw [parseRowAux]
    simp
  · rw [if_neg hq]
    have hch : ∀ c ∈ f.data, c ≠ '\t' ∧ c ≠ '"' := fun c hc =>
      ⟨(needsQuote_false_mem hq c hc).1, (needsQuote_false_mem hq c hc).2.1⟩
    have := parseRowAux_plain f.data [] acc hch
    rw [List.append_nil] at this
    rw [this, parseRowAux]
    simp

/-- A three-field row as written by `csv.writer`, split quote-aware on tabs,
recovers exactly the three fields — whatever characters they contain. -/
lemma parseRowQ_three (a b c : String) :
    parseRowQ (rowBody [a, b, c]) = [a, b, c] := by
  unfold parseRowQ
  have hdata : (rowBody [a, b, c]).data =
      (encodeField a).data ++ '\t' :: ((encodeField b).data ++ '\t' :: (encodeField c).data) := by
    show (encodeField a ++ "\t" ++ (encodeField b ++ "\t" ++ encodeField c)).data = _
    simp [String.data_append, show ("\t" : String).data = ['\t'] from rfl]
  rw [hdata, parseRowAux_field, parseRowAux_field, parseRowAux_last]
  simp

/-! ### TSV document structure under the CRLF row reader. -/

/-- A field whose characters trigger neither quoting nor row/field splits. -/
def safeField (t : String) : Prop :=
  ∀ c ∈ t.data, c ≠ '\t' ∧ c ≠ '"' ∧ c ≠ '\r' ∧ c ≠ '\n'

lemma noSpecialText_safe {t : String} (h : noSpecialText t = true) : safeField t := by
  intro c hc
  unfold noSpecialText at h
  rw [List.all_eq_true] at h
  have := h c hc
  simp only [Bool.and_eq_true, decide_eq_true_eq] at this
  exact ⟨this.1.1.1, this.2, this.1.2, this.1.1.2⟩

lemma format_time_safeField (q : ℚ) : safeField (format_time q) := format_time_safe q

lemma encodeField_id {t : String} (h : safeField t) : encodeField t = t := by
  unfold encodeField
  rw [if_neg]
  intro hq
  obtain ⟨c, hc, hb⟩ := List.any_eq_true.mp hq
  simp only [Bool.or_eq_true, decide_eq_true_eq] at hb
  obtain ⟨h1, h2, h3, h4⟩ := h c hc
  rcases hb with ((hb | hb) | hb) | hb
  exacts [h1 hb, h2 hb, h3 hb, h4 hb]

lemma rowBody_data_safe {t1 t2 t3 : String} (h1 : safeField t1) (h2 : safeField t2)
    (h3 : safeField t3) :
    (rowBody [t1, t2, t3]).data = t1.data ++ '\t' :: (t2.data ++ '\t' :: t3.data) := by
  show (encodeField t1 ++ "\t" ++ (encodeField t2 ++ "\t" ++ encodeField t3)).data = _
  rw [encodeField_id h1, encodeField_id h2, encodeField_id h3]
  simp [String.data_append, show ("\t" : String).data = ['\t'] from rfl]

lemma rowBody_no_cr {t1 t2 t3 : String} (h1 : safeField t1) (h2 : safeField t2)
    (h3 : safeField t3) :
    ∀ c ∈ (rowBody [t1, t2, t3]).data, c ≠ '\r' := by
  intro c hc
  rw [rowBody_data_safe h1 h2 h3] at hc
  simp only [List.mem_append, List.mem_cons] at hc
  rcases hc with hc | hc | hc | hc | hc
  · exact (h1 c hc).2.2.1
  · subst hc; decide
  · exact (h2 c hc).2.2.1
  · subst hc; decide
  · exact (h3 c hc).2.2.1

/-- Splitting a three-safe-field row on tabs yields exactly the three fields. -/
lemma splitTab_row {t1 t2 t3 : String} (h1 : safeField t1) (h2 : safeField t2)
    (h3 : safeField t3) :
    splitOnChar '\t' ((rowBody [t1, t2, t3]).data) = [t1.data, t2.data, t3.data] := by
  rw [rowBody_data_safe h1 h2 h3]
  rw [splitOnChar_append _ fun c hc => (h1 c hc).1,
    splitOnChar_append _ fun c hc => (h2 c hc).1,
    splitOnChar_no_sep fun c hc => (h3 c hc).1]

/-- The per-segment TSV row fields. -/
def tsvFields (s : FullSeg) : List String := [format_time s.start, format_time s.stop, s.text]

lemma tsvFields_no_cr (s : FullSeg) (h : noSpecialText s.text = true) :
    ∀ c ∈ (rowBody (tsvFields s)).data, c ≠ '\r' := by
  unfold tsvFields
  exact rowBody_no_cr (format_time_safeField _) (format_time_safeField _) (noSpecialText_safe h)

lemma tsv_rows_split : ∀ S : List FullSeg, (∀ s ∈ S, noSpecialText s.text = true) →
    splitCRLF ((strJoin (S.map fun s => writeRow (tsvFields s))).data) =
      (S.map fun s => (rowBody (tsvFields s)).data) ++ [[]] := by
  intro S
  induction S with
  | nil => intro _; rfl
  | cons s rest ih =>
    intro h
    rw [List.map_cons, strJoin]
    have hdata : ((writeRow (tsvFields s)) ++ strJoin (rest.map fun s => writeRow (tsvFields s))).data =
        (rowBody (tsvFields s)).data ++ '\r' :: '\n' ::
          (strJoin (rest.map fun s => writeRow (tsvFields s))).data := by
      unfold writeRow
      simp [String.data_append, show ("\r\n" : String).data = ['\r', '\n'] from rfl]
    rw [hdata]
    rw [splitCRLF_append _ (tsvFields_no_cr s (h s (by simp)))]
    rw [ih fun d hd => h d (by simp [hd])]
    rfl

/-- The full TSV artifact, rows read on `"\r\n"`: header, then one row per
segment, which reconstructs each segment's data at whole-second precision. -/
lemma parseTSVCRLF_render (S : List FullSeg)
    (h : ∀ s ∈ S, 0 ≤ s.start ∧ 0 ≤ s.stop ∧ noSpecialText s.text = true) :
    parseTSVCRLF (tsvRender S) =
      S.map fun s => some (⌊s.start⌋.toNat, ⌊s.stop⌋.toNat, s.text) := by
  unfold parseTSVCRLF tsvRender
  have hdata : ((writeRow ["Start", "End", "Text"]) ++
      strJoin (S.map fun s => writeRow [format_time s.start, format_time s.stop, s.text])).data =
      (rowBody ["Start", "End", "Text"]).data ++ '\r' :: '\n' ::
        (strJoin (S.map fun s => writeRow (tsvFields s))).data := by
    unfold writeRow tsvFields
    simp [String.data_append, show ("\r\n" : String).data = ['\r', '\n'] from rfl]
  rw [hdata]
  have hhdr : ∀ c ∈ (rowBody ["Start", "End", "Text"]).data, c ≠ '\r' := by decide
  rw [splitCRLF_append _ hhdr]
  rw [tsv_rows_split S fun s hs => (h s hs).2.2]
  rw [List.drop_one, List.tail_cons, List.dropLast_concat]
  rw [List.map_map]
  apply List.map_congr_left
  intro s hs
  obtain ⟨hs1, hs2, hs3⟩ := h s hs
  show (match splitOnChar '\t' ((rowBody (tsvFields s)).data) with
    | [f1, f2, f3] =>
      match parseTS f1, parseTS f2 with
      | some a, some b => some (a, b, (⟨f3⟩ : String))
      | _, _ => none
    | _ => none) = _
  unfold tsvFields
  rw [splitTab_row (format_time_safeField _) (format_time_safeField _) (noSpecialText_safe hs3)]
  show (match parseTS (format_time s.start).data, parseTS (format_time s.stop).data with
    | some a, some b => some (a, b, (⟨s.text.data⟩ : String))
    | _, _ => none) = _
  rw [parseTS_format_time hs1, parseTS_format_time hs2]

/-! ### Concrete timecode evaluations. -/

lemma ft_zero : format_time 0 = "00:00:00" := by
  rw [format_time_eq]; norm_num; decide

lemma ft_one : format_time 1 = "00:00:01" := by
  rw [format_time_eq]; norm_num; decide

lemma ft_two : format_time 2 = "00:00:02" := by
  rw [format_time_eq]; norm_num; decide

lemma ft_five : format_time 5 = "00:00:05" := by
  rw [format_time_eq]; norm_num; decide

lemma ft_long : format_time (3661.5 : ℚ) = "01:01:01" := by
  rw [format_time_eq]
  rw [show ⌊(3661.5 : ℚ)⌋ = 3661 by norm_num]
  decide

lemma ft_neg3 : format_time (-3 : ℚ) = "-1:59:57" := by
  rw [format_time_eq]
  rw [show ⌊(-3 : ℚ)⌋ = -3 by norm_num]
  decide

/-! ### The claims. -/

/-- C1: the SRT serializer does NOT carry the true millisecond part: at a
segment starting and ending at 3661.5 s it renders the hardcoded all-zero
suffix `,000` (the spec requires `01:01:01,500` here), and the
`milliseconds` local computed inside `format_time` is always zero because
the seconds value was truncated to a whole number first. -/
theorem srt_millis_hardcoded_zero :
    create_srt_content [mkD ⟨(3661.5 : ℚ), (3661.5 : ℚ), "x"⟩] =
      .ok "1\n01:01:01,000 --> 01:01:01,000\nx\n\n" ∧
    ∀ q : ℚ, format_time_milliseconds q = 0 := by
  constructor
  · simp only [show [mkD ⟨(3661.5 : ℚ), (3661.5 : ℚ), "x"⟩] =
      ([⟨(3661.5 : ℚ), (3661.5 : ℚ), "x"⟩] : List FullSeg).map mkD from rfl]
    rw [create_srt_ok]
    show Except.ok (srtBlock 1 ⟨(3661.5 : ℚ), (3661.5 : ℚ), "x"⟩ ++ "") = _
    unfold srtBlock
    show Except.ok (natRepr 1 ++ "\n" ++ (format_time (3661.5 : ℚ) ++ ",000") ++ " --> " ++
      (format_time (3661.5 : ℚ) ++ ",000") ++ "\n" ++ "x" ++ "\n\n" ++ "") = _
    rw [ft_long]
    congr 1
  · exact format_time_milliseconds_eq_zero

/-- C2: the SRT artifact is exactly the concatenation of one cue block per
segment, numbered sequentially from 1 in document order (index line,
timecode line, text line, blank line), and there are exactly `len(S)`
blocks. -/
theorem srt_block_structure (S : List FullSeg) :
    create_srt_content (S.map mkD) = .ok (srtSpec S) ∧
    ((S.enumFrom 1).map fun p => srtBlock p.1 p.2).length = S.length := by
  constructor
  · rw [create_srt_ok]; rfl
  · simp [List.enumFrom_length]

/-- C3 counterexample: a segment lacking `start` makes the SRT serializer
fail with Python's `KeyError("start")`, which is not the spec's
`MalformedResult("start")` error. -/
theorem srt_missing_start_raises_keyerror :
    create_srt_content [{ «end» := some 1, text := some "x" }] =
      .error (.keyError "start") ∧
    SerErr.keyError "start" ≠ SerErr.malformedResult "start" :=
  ⟨rfl, by decide⟩

/-- C3 amended: each per-segment serializer fails on the first missing
segment key with a `KeyError` naming that key (and the `txt` path fails with
`KeyError("text")` when the result lacks `text`); no default is substituted,
but the error is Python's generic key-lookup error, not `MalformedResult`. -/
theorem serializers_raise_keyerror :
    (∀ (e : ℚ) (t : String),
      create_srt_content [⟨none, some e, some t⟩] = .error (.keyError "start")) ∧
    (∀ (s : ℚ) (t : String),
      create_srt_content [⟨some s, none, some t⟩] = .error (.keyError "end")) ∧
    (∀ (s e : ℚ),
      create_srt_content [⟨some s, some e, none⟩] = .error (.keyError "text")) ∧
    (∀ (e : ℚ) (t : String),
      create_vtt_content [⟨none, some e, some t⟩] = .error (.keyError "start")) ∧
    (∀ (s : ℚ) (t : String),
      create_vtt_content [⟨some s, none, some t⟩] = .error (.keyError "end")) ∧
    (∀ (e : ℚ) (t : String),
      create_tsv_content [⟨none, some e, some t⟩] = .error (.keyError "start")) ∧
    (∀ (s : ℚ) (t : String),
      create_tsv_content [⟨some s, none, some t⟩] = .error (.keyError "end")) ∧
    (∀ segs : List SegmentD, txt_content ⟨none, segs⟩ = .error (.keyError "text")) :=
  ⟨fun _ _ => rfl, fun _ _ => rfl, fun _ _ => rfl, fun _ _ => rfl, fun _ _ => rfl,
    fun _ _ => rfl, fun _ _ => rfl, fun _ => rfl⟩

/-- C4 counterexample: with the segment text `a"b` — which contains no tab
and no newline — the naive reader of the claim (rows split on the newline
character, fields split on tabs) does not reconstruct the original tuple:
`csv.writer` quotes the field (`"a""b"`) and terminates rows with `\r\n`, so
the third field reads back as `"a""b"` followed by a stray `\r`. -/
theorem tsv_naive_round_trip_cex : tsvRoundTripNaive [⟨0, 1, "a\"b"⟩] = false := by
  unfold tsvRoundTripNaive
  rw [create_tsv_ok]
  show decide (parseTSVNaive (tsvRender [⟨0, 1, "a\"b"⟩]) =
    ([⟨0, 1, "a\"b"⟩] : List FullSeg).map fun s =>
      some (⌊s.start⌋.toNat, ⌊s.stop⌋.toNat, s.text)) = false
  unfold tsvRender
  simp only [List.map, ft_zero, ft_one, show ⌊(0:ℚ)⌋ = 0 from by norm_num,
    show ⌊(1:ℚ)⌋ = 1 from by norm_num]
  decide

/-- C4 amended: for segments with non-negative times whose text contains no
tab, newline, carriage return or double quote, splitting the TSV artifact's
rows on the `"\r\n"` sequence (the `csv.writer` line terminator) and each
data row on tabs reconstructs exactly the original `(start, end, text)`
tuples at whole-second precision. -/
theorem tsv_round_trip_crlf (S : List FullSeg)
    (h : ∀ s ∈ S, 0 ≤ s.start ∧ 0 ≤ s.stop ∧ noSpecialText s.text = true) :
    create_tsv_content (S.map mkD) = .ok (tsvRender S) ∧
    parseTSVCRLF (tsvRender S) =
      S.map fun s => some (⌊s.start⌋.toNat, ⌊s.stop⌋.toNat, s.text) :=
  ⟨create_tsv_ok S, parseTSVCRLF_render S h⟩

/-- C4 witness: the round trip at the concrete segment `(0, 2.5, "Hello")`. -/
theorem tsv_round_trip_crlf_witness :
    (∀ s ∈ ([⟨0, 5/2, "Hello"⟩] : List FullSeg),
      0 ≤ s.start ∧ 0 ≤ s.stop ∧ noSpecialText s.text = true) ∧
    parseTSVCRLF (tsvRender [⟨0, 5/2, "Hello"⟩]) = [some (0, 2, "Hello")] := by
  have hyp : ∀ s ∈ ([⟨0, 5/2, "Hello"⟩] : List FullSeg),
      0 ≤ s.start ∧ 0 ≤ s.stop ∧ noSpecialText s.text = true := by
    intro s hs
    simp only [List.mem_singleton] at hs
    subst hs
    exact ⟨by norm_num, by norm_num, by decide⟩
  refine ⟨hyp, ?_⟩
  rw [(tsv_round_trip_crlf _ hyp).2]
  simp only [List.map]
  norm_num
  decide

/-- C5 counterexample: at the segment `(0, 1, "a\tb")` the TSV artifact does
not have the claimed naive layout: splitting on the newline character leaves
a trailing `\r` on the header row (rows are `\r\n`-terminated), and the
embedded tab is preserved inside a quoted field rather than escaped away, so
the data row does not split on tabs into the two timecodes and the text. -/
theorem tsv_naive_layout_cex : tsvClaimNaive [⟨0, 1, "a\tb"⟩] = false := by decide

/-- C5 amended: the TSV artifact is the header row `Start\tEnd\tText`
terminated by `"\r\n"`, then one `"\r\n"`-terminated row per segment whose
fields are separated by single tabs, a field containing a tab, newline,
carriage return or quote being CSV-quoted (wrapped in quotes, embedded
quotes doubled); this preserves the row's three fields for a quote-aware
tab split, whatever the text contains. -/
theorem tsv_layout (S : List FullSeg) :
    create_tsv_content (S.map mkD) =
      .ok ("Start\tEnd\tText" ++ "\r\n" ++
        strJoin (S.map fun s =>
          rowBody [format_time s.start, format_time s.stop, s.text] ++ "\r\n")) ∧
    (S.map fun s => parseRowQ (rowBody [format_time s.start, format_time s.stop, s.text])) =
      S.map fun s => [format_time s.start, format_time s.stop, s.text] := by
  constructor
  · rw [create_tsv_ok]
    unfold tsvRender writeRow
    show Except.ok (rowBody ["Start", "End", "Text"] ++ "\r\n" ++ _) = _
    rw [show rowBody ["Start", "End", "Text"] = "Start\tEnd\tText" from rfl]
  · apply List.map_congr_left
    intro s _
    exact parseRowQ_three _ _ _

/-- C6 counterexample: `format_time(-0.5)` returns the string `"-1:59:59"`
— a (malformed) timecode produced by floor division — instead of failing
with `InvalidTimestamp`. -/
theorem format_time_negative_cex : format_time (-(1:ℚ)/2) = "-1:59:59" := by
  rw [format_time_eq]
  rw [show ⌊(-(1:ℚ)/2)⌋ = -1 by norm_num]
  decide

/-- C6 amended: on every negative input the formatter does not fail and does
not clamp to zero: it totally returns a string whose (negative) hour field
makes it start with `'-'`, hence differs from `format_time 0`. -/
theorem format_time_negative (q : ℚ) (h : q < 0) :
    (format_time q).data.head? = some '-' ∧ format_time q ≠ format_time 0 := by
  have hfl : ⌊q⌋ < 0 := by
    by_contra hc
    push_neg at hc
    exact absurd (Int.floor_nonneg.mp hc) (not_le.mpr h)
  have hh : ⌊q⌋ / 3600 < 0 := by omega
  have hhead : (format_time q).data.head? = some '-' := by
    rw [format_time_eq]
    have hp : pad2 (⌊q⌋ / 3600) = "-" ++ natRepr (⌊q⌋ / 3600).natAbs := by
      unfold pad2; rw [if_pos hh]
    rw [hp]
    simp [String.data_append, show ("-" : String).data = ['-'] from rfl]
  refine ⟨hhead, ?_⟩
  intro he
  rw [he, ft_zero] at hhead
  exact absurd hhead (by decide)

/-- C6 witness: the amended behaviour at the concrete input −1/2. -/
theorem format_time_negative_witness :
    (-(1:ℚ)/2 < 0) ∧
    ((format_time (-(1:ℚ)/2)).data.head? = some '-' ∧
      format_time (-(1:ℚ)/2) ≠ format_time 0) :=
  ⟨by norm_num, format_time_negative _ (by norm_num)⟩

/-- C7: the VTT artifact is the literal `"WEBVTT\n\n"` followed by the cue
blocks, each consisting of only a timecode line, the text and a blank line
(no cue index or identifier lines). -/
theorem vtt_structure (S : List FullSeg) :
    create_vtt_content (S.map mkD) = .ok ("WEBVTT\n\n" ++ strJoin (S.map vttCue)) :=
  create_vtt_ok S

/-- C8: for non-negative input the base formatter renders
`HH:MM:SS` from the floor of the input: hours zero-padded to at least two
digits and never truncated (the padded field parses back to the full hour
count), minutes and seconds zero-padded two-digit values below 60, the
fractional part dropped (only the floor matters), and `format(0)` is
`"00:00:00"`. -/
theorem format_time_base (q : ℚ) (h : 0 ≤ q) :
    format_time q =
      natPad2 (⌊q⌋.toNat / 3600) ++ ":" ++ natPad2 (⌊q⌋.toNat % 3600 / 60) ++ ":" ++
        natPad2 (⌊q⌋.toNat % 60) ∧
    ⌊q⌋.toNat % 3600 / 60 < 60 ∧ ⌊q⌋.toNat % 60 < 60 ∧
    2 ≤ (natPad2 (⌊q⌋.toNat / 3600)).length ∧
    (natPad2 (⌊q⌋.toNat % 3600 / 60)).length = 2 ∧ (natPad2 (⌊q⌋.toNat % 60)).length = 2 ∧
    parseNatL (natPad2 (⌊q⌋.toNat / 3600)).data = ⌊q⌋.toNat / 3600 ∧
    format_time q = format_time ((⌊q⌋ : ℤ) : ℚ) ∧
    format_time (0 : ℚ) = "00:00:00" := by
  have hfl : 0 ≤ ⌊q⌋ := Int.floor_nonneg.mpr h
  have hA : 0 ≤ ⌊q⌋ / 3600 := Int.ediv_nonneg hfl (by norm_num)
  have hB : 0 ≤ ⌊q⌋ % 3600 / 60 := Int.ediv_nonneg (Int.emod_nonneg _ (by norm_num)) (by norm_num)
  have hC : 0 ≤ ⌊q⌋ % 60 := Int.emod_nonneg _ (by norm_num)
  refine ⟨?_, by omega, by omega, natPad2_len_ge _,
    natPad2_len_two (by omega), natPad2_len_two (by omega), natPad2_parse _, ?_, ft_zero⟩
  · rw [format_time_eq, pad2_nonneg hA, pad2_nonneg hB, pad2_nonneg hC]
    rw [show (⌊q⌋ / 3600).toNat = ⌊q⌋.toNat / 3600 by omega,
      show (⌊q⌋ % 3600 / 60).toNat = ⌊q⌋.toNat % 3600 / 60 by omega,
      show (⌊q⌋ % 60).toNat = ⌊q⌋.toNat % 60 by omega]
  · rw [format_time_eq q, format_time_eq ((⌊q⌋ : ℤ) : ℚ), Int.floor_intCast]

/-- C8 witness: a time of 100 hours and half a second renders with a
three-digit, untruncated hour field. -/
theorem format_time_base_witness :
    (0:ℚ) ≤ (360000.5 : ℚ) ∧ format_time (360000.5 : ℚ) = "100:00:00" := by
  refine ⟨by norm_num, ?_⟩
  rw [(format_time_base (360000.5 : ℚ) (by norm_num)).1,
    show ⌊(360000.5 : ℚ)⌋ = 360000 by norm_num]
  decide

/-- C9: on an empty segment list every per-segment serializer succeeds:
SRT yields the empty string, VTT only the `WEBVTT` header and blank line,
TSV only the header row. -/
theorem empty_segments_ok :
    create_srt_content [] = .ok "" ∧
    create_vtt_content [] = .ok "WEBVTT\n\n" ∧
    create_tsv_content [] = .ok ("Start\tEnd\tText" ++ "\r\n") :=
  ⟨rfl, rfl, rfl⟩

/-- C10: on any list of fully populated segments (numeric start/end, string
text) all three per-segment serializers succeed — no ordering, sign or
overlap validation exists; concretely, a segment ending before it starts and
a segment with negative start are serialized without error. -/
theorem serializers_never_validate (S : List FullSeg) :
    create_srt_content (S.map mkD) = .ok (srtSpec S) ∧
    create_vtt_content (S.map mkD) = .ok ("WEBVTT\n\n" ++ strJoin (S.map vttCue)) ∧
    create_tsv_content (S.map mkD) = .ok (tsvRender S) ∧
    create_srt_content [mkD ⟨(5 : ℚ), 2, "x"⟩] =
      .ok "1\n00:00:05,000 --> 00:00:02,000\nx\n\n" ∧
    create_vtt_content [mkD ⟨(-3 : ℚ), 2, "x"⟩] =
      .ok "WEBVTT\n\n-1:59:57.000 --> 00:00:02.000\nx\n\n" := by
  refine ⟨by rw [create_srt_ok]; rfl, create_vtt_ok S, create_tsv_ok S, ?_, ?_⟩
  · simp only [show [mkD ⟨(5 : ℚ), (2:ℚ), "x"⟩] =
        ([⟨(5 : ℚ), (2:ℚ), "x"⟩] : List FullSeg).map mkD from rfl]
    rw [create_srt_ok]
    show Except.ok (srtBlock 1 ⟨(5 : ℚ), (2:ℚ), "x"⟩ ++ "") = _
    unfold srtBlock
    show Except.ok (natRepr 1 ++ "\n" ++ (format_time (5 : ℚ) ++ ",000") ++ " --> " ++
      (format_time (2 : ℚ) ++ ",000") ++ "\n" ++ "x" ++ "\n\n" ++ "") = _
    rw [ft_five, ft_two]
    congr 1
  · simp only [show [mkD ⟨(-3 : ℚ), (2:ℚ), "x"⟩] =
        ([⟨(-3 : ℚ), (2:ℚ), "x"⟩] : List FullSeg).map mkD from rfl]
    rw [create_vtt_ok]
    show Except.ok ("WEBVTT\n\n" ++ (vttCue ⟨(-3 : ℚ), (2:ℚ), "x"⟩ ++ "")) = _
    unfold vttCue
    show Except.ok ("WEBVTT\n\n" ++ ((format_time (-3 : ℚ) ++ ".000") ++ " --> " ++
      (format_time (2 : ℚ) ++ ".000") ++ "\n" ++ "x" ++ "\n\n" ++ "")) = _
    rw [ft_neg3, ft_two]
    congr 1

end Transcribe
